import Mathlib

/-!
Shallow embedding of `src/roulette.py` (wikipedia_film_roulette).

Modelling conventions:
* Strings are Lean `String`s; Python string primitives (`lower`, `strip`,
  `in`, `startswith`, slicing by code points) are re-implemented over
  `String.data` character lists.  The repository's data is ASCII, so the
  ASCII-only `Char.toLower` matches Python `str.lower` on every string that
  occurs here.
* A fetched HTML page is abstracted as `Page`: the anchors of the
  `mw-subcategories` container (when present), the `li` texts of the
  `mw-pages` container (when present), and the full anchor soup of the page.
  An anchor's `label` models `a.get_text(strip=True)`.
* The network/cache layer (`get_cached_page`) is abstracted into an
  environment `Env` mapping a URL to its `Page`; the cache category argument
  only affects the cache path, never the returned bytes, so it is dropped.
* Randomness (`random.choice`) is modelled by an oracle stream
  `List Nat`: each call consumes the head and indexes the list by
  `head % length`.  `random.choice` on an empty list raises `IndexError`,
  modelled as `none` / `RunError.indexError`.
* `sys.exit(1)` and uncaught exceptions are modelled by `Except.error`;
  a normal return of `main` is `Except.ok`.
* `difflib` similarity ratios are exact rationals (`ℚ`).  Python compares
  the float `2.0*M/T` with `0.5`; for the short strings involved the float
  comparison agrees with the exact rational comparison, since `2M/T` can
  only be misrounded across `1/2` when `T` is astronomically large.
-/

/-- Python `str.lower()` (ASCII). -/
def pyLower (s : String) : String := String.mk (s.data.map Char.toLower)

/-- Python `str.strip()`: drop whitespace from both ends of a char list. -/
def pyStripL (cs : List Char) : List Char :=
  ((cs.dropWhile Char.isWhitespace).reverse.dropWhile Char.isWhitespace).reverse

/-- Python `str.strip()` on strings. -/
def pyStrip (s : String) : String := String.mk (pyStripL s.data)

/-- Substring containment on char lists: Python `needle in hay`. -/
def listContains (needle hay : List Char) : Bool :=
  (List.range (hay.length + 1)).any (fun i => needle.isPrefixOf (hay.drop i))

/-- Python `needle in hay` for strings. -/
def pyIn (needle hay : String) : Bool := listContains needle.data hay.data

/-- Regex word character (`\w`) for the ASCII strings in play. -/
def isWordChar (c : Char) : Bool := c.isAlphanum || c == '_'

/-- Does a whole-word (case-insensitive) occurrence of `films` start at
position `i` of `cs`?  This is `\bfilms\b` of `re.sub` in `simplify_label`. -/
def filmsAt (cs : List Char) (i : Nat) : Bool :=
  (((cs.drop i).take 5).map Char.toLower == "films".data)
  && (i == 0 || !(isWordChar (cs.getD (i - 1) ' ')))
  && (decide (cs.length ≤ i + 5) || !(isWordChar (cs.getD (i + 5) ' ')))

/-- Left-to-right scan of `re.sub(r"\bfilms\b", "", label, re.IGNORECASE)`:
word boundaries are judged on the original string, and the scan resumes
after each non-overlapping match.  `fuel` only bounds the recursion; it is
called with `fuel = cs.length`, which the index `i` never outruns. -/
def removeFilmsGo (cs : List Char) : Nat → Nat → List Char
  | _, 0 => []
  | i, fuel + 1 =>
    if i < cs.length then
      if filmsAt cs i then removeFilmsGo cs (i + 5) fuel
      else cs.getD i ' ' :: removeFilmsGo cs (i + 1) fuel
    else []

/-- `re.sub(r"\bfilms\b", "", cs, flags=re.IGNORECASE)`. -/
def removeFilms (cs : List Char) : List Char := removeFilmsGo cs 0 cs.length

/-- `simplify_label(label, country)` of roulette.py: strip, drop a leading
case-insensitive `country` prefix (by `len(country)` code points), strip,
remove every whole word `films`, strip. -/
def simplify_label (label country : String) : String :=
  let l1 := pyStrip label
  let l2 :=
    if (pyLower country).data.isPrefixOf (pyLower l1).data then
      pyStrip (String.mk (l1.data.drop country.data.length))
    else l1
  pyStrip (String.mk (removeFilms l2.data))

/-! ## difflib: SequenceMatcher ratio and get_close_matches -/

/-- Ascending list of indices `j` with `b[j] = c`: difflib's `b2j[c]`
(no junk — autojunk only applies when `len(b) ≥ 200`, never here). -/
def indicesOf (b : List Char) (c : Char) : List Nat :=
  (List.range b.length).filter (fun j => b.getD j ' ' == c)

/-- `j2len.get(j, 0)` on an association list. -/
def lookupJ (m : List (Nat × Nat)) (j : Nat) : Nat :=
  match m.find? (fun p => p.1 == j) with
  | some p => p.2
  | none => 0

/-- Best matching block so far: `(besti, bestj, bestsize)`. -/
structure Best where
  i : Nat
  j : Nat
  size : Nat
deriving DecidableEq

/-- Inner loop of `find_longest_match` for one row `i`: walk the ascending
occurrence indices `js` of `a[i]` in `b`, building `newj2len` and updating
the best block (`k > bestsize` is strict, so ties keep the earliest block). -/
def flmRow (i : Nat) : List Nat → List (Nat × Nat) → List (Nat × Nat) → Best →
    List (Nat × Nat) × Best
  | [], _, acc, best => (acc, best)
  | j :: js, j2len, acc, best =>
    let k := (if j == 0 then 0 else lookupJ j2len (j - 1)) + 1
    let best' := if k > best.size then Best.mk (i + 1 - k) (j + 1 - k) k else best
    flmRow i js j2len ((j, k) :: acc) best'

/-- Outer loop of `find_longest_match` over the rows `is`. -/
def flmLoop (a b : List Char) (blo bhi : Nat) :
    List Nat → List (Nat × Nat) → Best → Best
  | [], _, best => best
  | i :: is_, j2len, best =>
    let js := (indicesOf b (a.getD i ' ')).filter
      (fun j => decide (blo ≤ j) && decide (j < bhi))
    let rb := flmRow i js j2len [] best
    flmLoop a b blo bhi is_ rb.1 rb.2

/-- `SequenceMatcher.find_longest_match(alo, ahi, blo, bhi)`.  The junk /
popular-element extension loops of difflib are no-ops here because the junk
set is empty for the short strings this program compares. -/
def findLongestMatch (a b : List Char) (alo ahi blo bhi : Nat) : Best :=
  flmLoop a b blo bhi (List.range' alo (ahi - alo)) [] (Best.mk alo blo 0)

/-- Total size of all matching blocks (`sum of Match.size` over
`get_matching_blocks`): recursively take the longest match and recurse on
both sides.  `fuel` only bounds the recursion depth, which is at most the
length of the `a`-range; it is called with more than that. -/
def matchTotalF : Nat → List Char → List Char → Nat → Nat → Nat → Nat → Nat
  | 0, _, _, _, _, _, _ => 0
  | fuel + 1, a, b, alo, ahi, blo, bhi =>
    let m := findLongestMatch a b alo ahi blo bhi
    if m.size == 0 then 0
    else
      matchTotalF fuel a b alo m.i blo m.j + m.size +
      matchTotalF fuel a b (m.i + m.size) ahi (m.j + m.size) bhi

/-- Matched-character total of `SequenceMatcher(None, a, b)`. -/
def matchTotal (a b : List Char) : Nat :=
  matchTotalF (a.length + b.length + 1) a b 0 a.length 0 b.length

/-- `SequenceMatcher.ratio()`: `2*M / (len(a)+len(b))`, and `1.0` for two
empty sequences, as an exact rational (`mkRat` normalizes the fraction). -/
def ratio (a b : String) : ℚ :=
  let la := a.data.length
  let lb := b.data.length
  if la + lb = 0 then 1
  else mkRat (2 * (matchTotal a.data b.data)) (la + lb)

/-- The `cutoff=0.5` of `difflib.get_close_matches` as an exact rational. -/
def cutoffHalf : ℚ := mkRat 1 2

/-- Lexicographic order on difflib's `(score, string)` decoration tuples:
`heapq.nlargest` compares the full tuple, so equal scores tie-break on the
candidate string (Python code-point order = Lean `String.lt`). -/
def pairLt (p q : ℚ × String) : Bool :=
  decide (p.1 < q.1) || (decide (p.1 = q.1) && decide (p.2 < q.2))

/-- Maximum of a list of `(score, string)` tuples in tuple order:
`heapq.nlargest(1, result)` (empty list gives `none`). -/
def bestPair : List (ℚ × String) → Option (ℚ × String)
  | [] => none
  | p :: rest =>
    match bestPair rest with
    | none => some p
    | some q => some (if pairLt p q then q else p)

/-- `difflib.get_close_matches(word, possibilities, n=1, cutoff=0.5)`,
returning `matches[0]` when nonempty.  Each possibility `x` is loaded as
`seq1` against `seq2 = word`, hence `ratio x word`.  difflib pre-filters
with `real_quick_ratio` and `quick_ratio`, both upper bounds of `ratio`,
so the triple `≥ cutoff` test is inlined to `ratio ≥ cutoff`. -/
def getCloseMatches1 (word : String) (possibilities : List String) : Option String :=
  let scored := possibilities.filterMap
    (fun x => if cutoffHalf ≤ ratio x word then some (ratio x word, x) else none)
  (bestPair scored).map (fun p => p.2)

/-- `suggest_closest(match_to, options)` of roulette.py: first option whose
lowercased text contains the lowercased query, else the single best
`get_close_matches` hit at cutoff `0.5`, else `none`. -/
def suggest_closest (match_to : String) (options : List String) : Option String :=
  match options.find? (fun option => pyIn (pyLower match_to) (pyLower option)) with
  | some option => some option
  | none => getCloseMatches1 match_to options

/-! ## Data model: pages, links, environment -/

/-- One HTML anchor as the extractor sees it: `label` is
`a.get_text(strip=True)`, `href` is the `href` attribute. -/
structure Anchor where
  label : String
  href : String
deriving DecidableEq

/-- A fetched listing page: the anchors inside the `mw-subcategories`
container when that container exists, the `li` texts inside the `mw-pages`
container when it exists, and every anchor of the page (the soup). -/
structure Page where
  subcatDiv : Option (List Anchor)
  pagesDiv : Option (List String)
  allAnchors : List Anchor
deriving DecidableEq

/-- One entry of `fetch_live_country_links()`. -/
structure CountryLink where
  country : String
  genre_page_url : String
deriving DecidableEq

/-- One entry of `get_genre_links_from_live_page`. -/
structure GenreLink where
  genre : String
  url : String
deriving DecidableEq

/-- One subgenre link of `get_final_film_titles` /
`search_global_subgenre_links`. -/
structure SubLink where
  url : String
  subgenre : String
deriving DecidableEq

/-- One accepted draw, as appended to `results` in `main`. -/
structure Row where
  Country : String
  Genre : String
  Subgenre : String
  Film : String
deriving DecidableEq

/-- The outside world: the country links extracted from the top category
page, and the page served (through the cache) for each URL.  The cache
category parameter never changes the returned content, so it is dropped. -/
structure Env where
  countryLinks : List CountryLink
  pages : String → Page

/-- CLI options of `main`: `-n`, `-c`, `-g`, `-s`. -/
structure Cfg where
  n : Nat
  c : Option String
  g : Option String
  s : Option String

/-- Fatal outcomes of a run: `filterNotFound` models the
`Error: Specified ... not found.` + `sys.exit(1)` paths (with the
suggestion printed when one exists), `indexError` models
`random.choice([])`, `stopIteration` models `next()` on an empty
generator. -/
inductive RunError where
  | filterNotFound (level : String) (query : String) (suggestion : Option String)
  | indexError
  | stopIteration
deriving DecidableEq

/-- `clean_url` of roulette.py (the second definition, which shadows the
first): prefix non-`http` URLs with the Wikipedia host. -/
def clean_url (url : String) : String :=
  if "http".data.isPrefixOf url.data then url else "https://en.wikipedia.org" ++ url

/-- The literal `f"https://en.wikipedia.org{href}"` used by the extractors. -/
def wikiUrl (href : String) : String := "https://en.wikipedia.org" ++ href

/-! ## Link Extractor -/

/-- `list(dict.fromkeys(xs))`: drop entries whose value was already seen,
keeping the first occurrence and the original order. -/
def dedupFirstAux (seen : List String) : List String → List String
  | [] => []
  | x :: xs =>
    if x ∈ seen then dedupFirstAux seen xs
    else x :: dedupFirstAux (x :: seen) xs

/-- `get_genre_links_from_live_page(url)` on the fetched page: when the
`mw-subcategories` container exists, each of its anchors yields one link;
otherwise every page anchor whose text contains `films` (case-insensitive)
yields one link.  No dedup is performed. -/
def genreLinksOfPage (p : Page) : List GenreLink :=
  match p.subcatDiv with
  | some anchors => anchors.map (fun a => GenreLink.mk a.label (wikiUrl a.href))
  | none =>
    (p.allAnchors.filter (fun a => pyIn "films" (pyLower a.label))).map
      (fun a => GenreLink.mk a.label (wikiUrl a.href))

/-- `get_genre_links_from_live_page` with the fetch inlined through `Env`. -/
def get_genre_links_from_live_page (env : Env) (url : String) : List GenreLink :=
  genreLinksOfPage (env.pages url)

/-- `get_film_titles_from_live_page(url, category)`: the `li` texts of the
`mw-pages` container (empty when absent), deduplicated by
`list(dict.fromkeys(...))`.  The `category` argument only selects a cache
directory and is dropped. -/
def get_film_titles_from_live_page (env : Env) (url : String) : List String :=
  dedupFirstAux [] ((env.pages url).pagesDiv.getD [])

/-- Shared accumulator loop of the two subgenre-collection passes of
`get_final_film_titles`: append a link for each anchor satisfying `pred`
whose label has not been seen, threading the `seen_subgenres` set. -/
def addAnchorsP (pred : Anchor → Bool) :
    List Anchor → List SubLink → List String → List SubLink × List String
  | [], acc, seen => (acc, seen)
  | a :: as_, acc, seen =>
    if pred a = true ∧ a.label ∉ seen then
      addAnchorsP pred as_ (acc ++ [SubLink.mk (wikiUrl a.href) a.label]) (a.label :: seen)
    else addAnchorsP pred as_ acc seen

/-- The subgenre links collected at the top of `get_final_film_titles`:
first every anchor of the `mw-subcategories` container (if present), then —
unconditionally — every page anchor whose text contains `film`, both passes
sharing one `seen_subgenres` set. -/
def subgenreLinksOf (p : Page) : List SubLink :=
  let s1 := addAnchorsP (fun _ => true) (p.subcatDiv.getD []) [] []
  (addAnchorsP (fun a => pyIn "film" (pyLower a.label)) p.allAnchors s1.1 s1.2).1

/-! ## Heuristic generator -/

/-- Python `"  " -> " "` replacement (`str.replace`, non-overlapping,
left to right, resuming after each replacement). -/
def replDouble : List Char → List Char
  | ' ' :: ' ' :: rest => ' ' :: replDouble rest
  | c :: rest => c :: replDouble rest
  | [] => []

/-- Accumulating word splitter behind `pySplitWs`. -/
def pyWordsGo (cur : List Char) : List Char → List String
  | [] => if cur.isEmpty then [] else [String.mk cur.reverse]
  | c :: rest =>
    if c.isWhitespace then
      if cur.isEmpty then pyWordsGo [] rest
      else String.mk cur.reverse :: pyWordsGo [] rest
    else pyWordsGo (c :: cur) rest

/-- Python `str.split()` with no argument: split on whitespace runs,
dropping leading/trailing whitespace and empty fields. -/
def pySplitWs (s : String) : List String := pyWordsGo [] s.data

/-- `search_global_subgenre_links(country, genre)`: cross product of the
three keywords with the five fixed subgenre tokens; each candidate title is
`f"{k} {sub} films"` with double spaces collapsed, and its URL is
`Category:` followed by the `_`-joined words. -/
def search_global_subgenre_links (country genre : String) : List SubLink :=
  let keywords := [pyStrip (country ++ " " ++ genre), country, genre]
  let common_subgenres :=
    ["time travel", "dystopian", "space opera", "cyberpunk", "alien invasion"]
  (keywords.map (fun k =>
    common_subgenres.map (fun sub =>
      let cat := String.mk (replDouble (k ++ " " ++ sub ++ " films").data)
      let url := clean_url ("/wiki/Category:" ++ String.intercalate "_" (pySplitWs cat))
      SubLink.mk url cat))).flatten

/-! ## Descent Controller -/

/-- `random.choice(l)` with an oracle stream: consume the head of the
stream and index by it modulo the length; `none` on an empty list is
Python's `IndexError`. -/
def pick : List α → List Nat → Option (α × List Nat)
  | [], _ => none
  | x :: xs, r => some ((x :: xs).getD (r.headD 0 % (x :: xs).length) x, r.tail)

/-- `random.choice(l)` at a call site where `l` is known nonempty; the
default is never read because the index is reduced modulo the length. -/
def pickD (l : List α) (d : α) (r : List Nat) : α × List Nat :=
  (l.getD (r.headD 0 % l.length) d, r.tail)

/-- The country-selection step of `main`'s loop.  With `-c` set: keep the
links whose name equals the filter case-insensitively and take the first,
else print `Error: Specified country ... not found` (with the
`suggest_closest` suggestion when present) and `sys.exit(1)`.  Without
`-c`: `random.choice(country_links)`. -/
def selectCountry (c : Option String) (links : List CountryLink) (r : List Nat) :
    Except RunError (CountryLink × List Nat) :=
  match c with
  | some q =>
    match links.filter (fun cl => pyLower q == pyLower cl.country) with
    | m :: _ => Except.ok (m, r)
    | [] =>
      Except.error (RunError.filterNotFound "country" q
        (suggest_closest q (links.map (fun cl => cl.country))))
  | none =>
    match pick links r with
    | some (cl, r1) => Except.ok (cl, r1)
    | none => Except.error RunError.indexError

/-- The genre-selection step of `main`'s loop.  With `-g` set: keep the
links whose **simplified** label contains the lowercased filter and pick
one at random, else `FilterNotFound` with a suggestion computed over the
simplified names.  Without `-g`: `random.choice(genre_links)` (raising
`IndexError` when the list is empty). -/
def selectGenre (g : Option String) (country : String) (genreLinks : List GenreLink)
    (r : List Nat) : Except RunError (GenreLink × List Nat) :=
  match g with
  | some q =>
    match genreLinks.filter
        (fun gl => pyIn (pyLower q) (pyLower (simplify_label gl.genre country))) with
    | f :: fs => Except.ok (pickD (f :: fs) f r)
    | [] =>
      Except.error (RunError.filterNotFound "genre" q
        (suggest_closest q (genreLinks.map (fun gl => simplify_label gl.genre country))))
  | none =>
    match pick genreLinks r with
    | some (gl, r1) => Except.ok (gl, r1)
    | none => Except.error RunError.indexError

/-- The guessed-links fallback of `get_final_film_titles`: resolve the
desired subgenre against `search_global_subgenre_links(country, genre)`;
on a hit descend into the guessed URL, otherwise print
`Error: Specified subgenre ... not found.` (no suggestion) and
`sys.exit(1)`.  The `next()` without default cannot actually fail because
the suggestion is drawn from the candidate names. -/
def guessedBranch (env : Env) (dq country genre : String) (r : List Nat) :
    Except RunError ((List String × String) × List Nat) :=
  let guessed := search_global_subgenre_links country genre
  match suggest_closest dq (guessed.map (fun gl => gl.subgenre)) with
  | some gsugg =>
    match guessed.find? (fun gl => gl.subgenre == gsugg) with
    | some gm =>
      Except.ok ((get_film_titles_from_live_page env gm.url,
        simplify_label gm.subgenre ""), r)
    | none => Except.error RunError.stopIteration
  | none => Except.error (RunError.filterNotFound "subgenre" dq none)

/-- `get_final_film_titles(url, desired_subgenre, country, genre)` with the
oracle stream threaded through the two `random.choice` calls.  Returns the
film-title list together with the subgenre label (already passed once through simplify_label with an empty country). -/
def get_final_film_titles (env : Env) (url : String) (desired : Option String)
    (country genre : String) (r : List Nat) :
    Except RunError ((List String × String) × List Nat) :=
  let subLinks := subgenreLinksOf (env.pages url)
  match desired with
  | some dq =>
    match suggest_closest dq (subLinks.map (fun sl => sl.subgenre)) with
    | some sugg =>
      match subLinks.find? (fun sl => sl.subgenre == sugg) with
      | some matched =>
        Except.ok ((get_film_titles_from_live_page env matched.url,
          simplify_label matched.subgenre ""), r)
      | none => guessedBranch env dq country genre r
    | none => guessedBranch env dq country genre r
  | none =>
    let films := get_film_titles_from_live_page env url
    match subLinks with
    | [] => Except.ok ((films, ""), r)
    | s0 :: ss =>
      let flip := pickD [true, false] true r
      if flip.1 then
        let ch := pickD (s0 :: ss) s0 flip.2
        Except.ok ((get_film_titles_from_live_page env ch.1.url,
          simplify_label ch.1.subgenre ""), ch.2)
      else if films.isEmpty then
        let ch := pickD (s0 :: ss) s0 flip.2
        Except.ok ((get_film_titles_from_live_page env ch.1.url,
          simplify_label ch.1.subgenre ""), ch.2)
      else Except.ok ((films, ""), flip.2)

/-- One iteration of `main`'s while-loop (one draw): select country and
genre, fetch the final film list, and either abandon the draw
(`Except.ok (none, _)`: empty film list or no unique film left) or accept
one film as a result row.  `main` does not forward the chosen country and
genre to `get_final_film_titles`, so they default to `""` there. -/
def attemptDraw (env : Env) (cfg : Cfg) (results : List Row) (r : List Nat) :
    Except RunError (Option Row × List Nat) :=
  match selectCountry cfg.c env.countryLinks r with
  | Except.error e => Except.error e
  | Except.ok (cc, r1) =>
    match selectGenre cfg.g cc.country
        (get_genre_links_from_live_page env cc.genre_page_url) r1 with
    | Except.error e => Except.error e
    | Except.ok (cg, r2) =>
      match get_final_film_titles env cg.url cfg.s "" "" r2 with
      | Except.error e => Except.error e
      | Except.ok ((films, subgenre), r3) =>
        if films.isEmpty then Except.ok (none, r3)
        else
          match films.filter (fun f => !(results.any (fun row => row.Film == f))) with
          | [] => Except.ok (none, r3)
          | c0 :: cs =>
            let chosen := pickD (c0 :: cs) c0 r3
            Except.ok (some (Row.mk cc.country
              (simplify_label cg.genre cc.country)
              (simplify_label subgenre cc.country)
              chosen.1), chosen.2)

/-- `main`'s while-loop, recursing on the remaining attempt budget
`fuel = max_attempts - attempts`: the loop guard `attempts < max_attempts`
is exactly `fuel > 0`, and every completed iteration — accepted or
abandoned — increments `attempts` by one while decrementing `fuel`.
Returns the accumulated rows and the final attempt count. -/
def runLoopF (env : Env) (cfg : Cfg) :
    Nat → List Row → List Nat → Nat → Except RunError (List Row × Nat)
  | 0, results, _, attempts => Except.ok (results, attempts)
  | fuel + 1, results, r, attempts =>
    if results.length < cfg.n then
      match attemptDraw env cfg results r with
      | Except.error e => Except.error e
      | Except.ok (none, r1) => runLoopF env cfg fuel results r1 (attempts + 1)
      | Except.ok (some row, r1) =>
        runLoopF env cfg fuel (results ++ [row]) r1 (attempts + 1)
    else Except.ok (results, attempts)

/-- `main`'s while-loop from `attempts = 0` with
`max_attempts = args.n * 5`. -/
def runLoop (env : Env) (cfg : Cfg) (r : List Nat) :
    Except RunError (List Row × Nat) :=
  runLoopF env cfg (cfg.n * 5) [] r 0

/-- The sort key comparison of `main`: Python tuple comparison on
`(Country, Genre, Subgenre, Film)` (code-point string order). -/
def keyLeB (a b : Row) : Bool :=
  decide (a.Country < b.Country) ||
  (a.Country == b.Country &&
    (decide (a.Genre < b.Genre) ||
      (a.Genre == b.Genre &&
        (decide (a.Subgenre < b.Subgenre) ||
          (a.Subgenre == b.Subgenre && !(decide (b.Film < a.Film)))))))

/-- `keyLeB` as a relation for `List.insertionSort` (a stable sort, like
Python `list.sort`). -/
def rowLe (a b : Row) : Prop := keyLeB a b = true

instance : DecidableRel rowLe :=
  fun a b => inferInstanceAs (Decidable (keyLeB a b = true))

/-- `main(args)` after argument parsing: run the draw loop from an empty
result list and zero attempts, then sort the rows by
`(Country, Genre, Subgenre, Film)`.  Output formatting is dropped. -/
def run_main (env : Env) (cfg : Cfg) (r : List Nat) : Except RunError (List Row) :=
  match runLoop env cfg r with
  | Except.error e => Except.error e
  | Except.ok (rows, _) => Except.ok (List.insertionSort rowLe rows)

instance {ε α : Type} [DecidableEq ε] [DecidableEq α] : DecidableEq (Except ε α) :=
  fun a b =>
    match a, b with
    | Except.error x, Except.error y =>
      match decEq x y with
      | isTrue h => isTrue (by rw [h])
      | isFalse h => isFalse (fun hx => h (by cases hx; rfl))
    | Except.error _, Except.ok _ => isFalse (fun hx => by cases hx)
    | Except.ok _, Except.error _ => isFalse (fun hx => by cases hx)
    | Except.ok x, Except.ok y =>
      match decEq x y with
      | isTrue h => isTrue (by rw [h])
      | isFalse h => isFalse (fun hx => h (by cases hx; rfl))

/-! ## Concrete pages and environments used as test inputs -/

/-- A page with no recognizable structure at all. -/
def pageBlank : Page := Page.mk none none []

/-- The genre index page of the specification scenario: one structured
subcategory anchor for American science fiction films. -/
def pageGenreIdx : Page :=
  Page.mk (some [Anchor.mk "American science fiction films"
    "/wiki/Category:American_science_fiction_films"]) none []

/-- The film listing page of the specification scenario: no subcategories,
two films. -/
def pageFilms : Page := Page.mk none (some ["Film A", "Film B"]) []

/-- Environment of the specification scenario: one country whose genre
index lists one genre whose page lists two films. -/
def envScenario : Env :=
  Env.mk [CountryLink.mk "American"
      "https://en.wikipedia.org/wiki/Category:American_films_by_genre"]
    (fun u =>
      if u == "https://en.wikipedia.org/wiki/Category:American_films_by_genre" then
        pageGenreIdx
      else if u == "https://en.wikipedia.org/wiki/Category:American_science_fiction_films" then
        pageFilms
      else pageBlank)

/-- A self-looping genre page with one subcategory and no films anywhere:
every draw is abandoned. -/
def pageLoop : Page := Page.mk (some [Anchor.mk "g films" "/g"]) none []

/-- Environment in which every draw finds links but never a film. -/
def envAbandon : Env := Env.mk [CountryLink.mk "X" "u"] (fun _ => pageLoop)

/-- Environment whose only country has an empty genre page: the unfiltered
genre `random.choice` runs on an empty list. -/
def envNoGenres : Env := Env.mk [CountryLink.mk "Fr" "cu"] (fun _ => pageBlank)

/-- Environment with no pages at all (used with a subgenre filter that
cannot resolve). -/
def envEmpty : Env := Env.mk [] (fun _ => pageBlank)

/-- A page whose structured subcategory container holds two anchors with
the same label. -/
def pageDupLabels : Page :=
  Page.mk (some [Anchor.mk "war films" "/a", Anchor.mk "war films" "/b"]) none
    [Anchor.mk "war films" "/a", Anchor.mk "war films" "/b"]

/-- A page whose structured container yields one link while the page soup
holds a further film-labelled anchor. -/
def pageMerge : Page :=
  Page.mk (some [Anchor.mk "horror films" "/a"]) none
    [Anchor.mk "horror films" "/a", Anchor.mk "war films" "/b"]

/-- Environment for the heuristic-generator trace: `American` has one
genre, that genre's page carries no subgenre anchors and no films, and the
only page holding a film is `Category:time_travel_films` — the category the
run synthesizes when country and genre are not forwarded. -/
def envHeuristic : Env :=
  Env.mk [CountryLink.mk "American" "gidx"]
    (fun u =>
      if u == "gidx" then pageGenreIdx
      else if u == "https://en.wikipedia.org/wiki/Category:time_travel_films" then
        Page.mk none (some ["TT Film"]) []
      else pageBlank)

/-! ## Sanity checks of the embedding on concrete inputs -/

example : simplify_label "American science fiction films" "American" = "science fiction" := by decide

example : simplify_label " time travel films" "" = "time travel" := by decide

example : ratio "science fiction" "sci-fi" = mkRat 10 21 := by decide

example : ratio "American" "Americans" = mkRat 16 17 := by decide

example : ratio "science fiction" "sci-fi" < cutoffHalf := by decide

example : cutoffHalf = (1 : ℚ) / 2 := by
  norm_num [cutoffHalf, Rat.mkRat_eq_div]

example : suggest_closest "sci-fi" ["science fiction"] = none := by decide

example : suggest_closest "Americans" ["American"] = some "American" := by decide

example : suggest_closest "fiction films" ["science fiction"] = some "science fiction" := by decide

example : suggest_closest "science fiction" ["American science fiction films"]
    = some "American science fiction films" := by decide

example :
    (search_global_subgenre_links "American" "science fiction").head? =
      some (SubLink.mk
        "https://en.wikipedia.org/wiki/Category:American_science_fiction_time_travel_films"
        "American science fiction time travel films") := by decide

example :
    (search_global_subgenre_links "" "").head? =
      some (SubLink.mk
        "https://en.wikipedia.org/wiki/Category:time_travel_films"
        " time travel films") := by decide

/-! ## Lemmas: deduplication -/

theorem dedupFirstAux_sublist (seen : List String) (l : List String) :
    List.Sublist (dedupFirstAux seen l) l := by
  induction l generalizing seen with
  | nil => simp [dedupFirstAux]
  | cons x xs ih =>
    by_cases hx : x ∈ seen
    · simpa [dedupFirstAux, hx] using List.Sublist.cons x (ih seen)
    · simpa [dedupFirstAux, hx] using List.Sublist.cons₂ x (ih (x :: seen))

theorem mem_dedupFirstAux (seen : List String) (l : List String) (y : String) :
    y ∈ dedupFirstAux seen l ↔ y ∈ l ∧ y ∉ seen := by
  induction l generalizing seen with
  | nil => simp [dedupFirstAux]
  | cons x xs ih =>
    by_cases hx : x ∈ seen
    · rw [dedupFirstAux, if_pos hx, ih]
      constructor
      · rintro ⟨hy, hns⟩; exact ⟨List.mem_cons_of_mem _ hy, hns⟩
      · rintro ⟨hy, hns⟩
        rcases List.mem_cons.mp hy with rfl | hy
        · exact absurd hx hns
        · exact ⟨hy, hns⟩
    · rw [dedupFirstAux, if_neg hx]
      constructor
      · intro hy
        rcases List.mem_cons.mp hy with rfl | hy
        · exact ⟨List.mem_cons_self _ _, hx⟩
        · rcases (ih (x :: seen)).mp hy with ⟨h1, h2⟩
          refine ⟨List.mem_cons_of_mem _ h1, fun hc => h2 (List.mem_cons_of_mem _ hc)⟩
      · rintro ⟨hy, hns⟩
        rcases List.mem_cons.mp hy with rfl | hy
        · exact List.mem_cons_self _ _
        · by_cases hxy : y = x
          · subst hxy; exact List.mem_cons_self _ _
          · exact List.mem_cons_of_mem _
              ((ih (x :: seen)).mpr ⟨hy, by simp [hxy, hns]⟩)

theorem dedupFirstAux_nodup (seen : List String) (l : List String) :
    (dedupFirstAux seen l).Nodup := by
  induction l generalizing seen with
  | nil => simp [dedupFirstAux]
  | cons x xs ih =>
    by_cases hx : x ∈ seen
    · simpa [dedupFirstAux, hx] using ih seen
    · rw [dedupFirstAux, if_neg hx]
      refine List.nodup_cons.mpr ⟨fun hc => ?_, ih (x :: seen)⟩
      exact ((mem_dedupFirstAux _ _ _).mp hc).2 (List.mem_cons_self _ _)

/-- Invariant bundle for the shared subgenre-collection loop: assuming the
seen set is exactly the set of accumulated labels and the accumulated
labels are distinct, the loop preserves both facts, only appends to the
accumulator, and ends with every `pred`-satisfying anchor's label present. -/
theorem addAnchorsP_spec (pred : Anchor → Bool) :
    ∀ (as_ : List Anchor) (acc : List SubLink) (seen : List String),
    (∀ l, l ∈ seen ↔ l ∈ acc.map SubLink.subgenre) →
    (acc.map SubLink.subgenre).Nodup →
    (((addAnchorsP pred as_ acc seen).1.map SubLink.subgenre).Nodup
      ∧ (∀ l, l ∈ (addAnchorsP pred as_ acc seen).2 ↔
          l ∈ (addAnchorsP pred as_ acc seen).1.map SubLink.subgenre)
      ∧ (∃ t, (addAnchorsP pred as_ acc seen).1 = acc ++ t)
      ∧ (∀ a ∈ as_, pred a = true →
          a.label ∈ (addAnchorsP pred as_ acc seen).1.map SubLink.subgenre)) := by
  intro as_
  induction as_ with
  | nil =>
    intro acc seen hiff hnd
    exact ⟨hnd, hiff, ⟨[], by simp [addAnchorsP]⟩, by simp⟩
  | cons a as_ ih =>
    intro acc seen hiff hnd
    by_cases hc : pred a = true ∧ a.label ∉ seen
    · rw [addAnchorsP, if_pos hc] at *
      have hfresh : a.label ∉ acc.map SubLink.subgenre := fun hm => hc.2 ((hiff _).mpr hm)
      have hiff' : ∀ l, l ∈ a.label :: seen ↔
          l ∈ ((acc ++ [SubLink.mk (wikiUrl a.href) a.label]).map SubLink.subgenre) := by
        intro l
        simp only [List.map_append, List.mem_append, List.mem_cons, List.map_cons,
          List.map_nil, List.mem_singleton, hiff l]
        tauto
      have hnd' : ((acc ++ [SubLink.mk (wikiUrl a.href) a.label]).map SubLink.subgenre).Nodup := by
        simp only [List.map_append]
        refine List.Nodup.append hnd (by simp) ?_
        intro x hx hy
        simp only [List.map_cons, List.map_nil, List.mem_singleton] at hy
        subst hy; exact hfresh hx
      obtain ⟨h1, h2, ⟨t, ht⟩, h4⟩ := ih _ _ hiff' hnd'
      refine ⟨h1, h2, ⟨SubLink.mk (wikiUrl a.href) a.label :: t, by
        rw [ht]; simp⟩, ?_⟩
      intro x hx hp
      rcases List.mem_cons.mp hx with rfl | hx
      · rw [ht]; simp
      · exact h4 x hx hp
    · rw [addAnchorsP, if_neg hc] at *
      obtain ⟨h1, h2, ⟨t, ht⟩, h4⟩ := ih _ _ hiff hnd
      refine ⟨h1, h2, ⟨t, ht⟩, ?_⟩
      intro x hx hp
      rcases List.mem_cons.mp hx with rfl | hx
      · have hseen : x.label ∈ seen := by
          by_contra hns
          exact hc ⟨hp, hns⟩
        have hmem : x.label ∈ acc.map SubLink.subgenre := (hiff _).mp hseen
        rw [ht, List.map_append]
        exact List.mem_append_left _ hmem
      · exact h4 x hx hp

/-- The subgenre links collected by `get_final_film_titles` carry pairwise
distinct labels. -/
theorem subgenreLinksOf_label_nodup (p : Page) :
    ((subgenreLinksOf p).map SubLink.subgenre).Nodup := by
  have h1 := addAnchorsP_spec (fun _ => true) (p.subcatDiv.getD []) [] []
    (by simp) (by simp)
  obtain ⟨hnd1, hiff1, _, _⟩ := h1
  have h2 := addAnchorsP_spec (fun a => pyIn "film" (pyLower a.label)) p.allAnchors
    _ _ hiff1 hnd1
  exact h2.1

/-! ## Lemmas: fuzzy resolver -/

theorem pairLt_false_fst_le {p q : ℚ × String} (h : ¬ pairLt p q = true) : q.1 ≤ p.1 := by
  rw [pairLt] at h
  simp only [Bool.or_eq_true, Bool.and_eq_true, decide_eq_true_eq, not_or, not_and] at h
  exact le_of_not_lt h.1

theorem bestPair_mem :
    ∀ (l : List (ℚ × String)) (m : ℚ × String), bestPair l = some m → m ∈ l := by
  intro l
  induction l with
  | nil => intro m h; cases h
  | cons p rest ih =>
    intro m h
    rw [bestPair] at h
    cases hb : bestPair rest with
    | none =>
      rw [hb] at h
      cases h
      exact List.mem_cons_self _ _
    | some q =>
      rw [hb] at h
      simp only [Option.some.injEq] at h
      by_cases hlt : pairLt p q = true
      · rw [if_pos hlt] at h
        exact h ▸ List.mem_cons_of_mem _ (ih q hb)
      · rw [if_neg hlt] at h
        exact h ▸ List.mem_cons_self _ _

theorem bestPair_isSome :
    ∀ (l : List (ℚ × String)), l ≠ [] → (bestPair l).isSome = true := by
  intro l
  cases l with
  | nil => intro h; exact absurd rfl h
  | cons p rest =>
    intro _
    rw [bestPair]
    cases hb : bestPair rest with
    | none => rfl
    | some q => by_cases hlt : pairLt p q = true <;> simp [hlt]

theorem bestPair_max :
    ∀ (l : List (ℚ × String)) (m : ℚ × String), bestPair l = some m →
      ∀ x ∈ l, x.1 ≤ m.1 := by
  intro l
  induction l with
  | nil => intro m h; cases h
  | cons p rest ih =>
    intro m h x hx
    rw [bestPair] at h
    cases hb : bestPair rest with
    | none =>
      rw [hb] at h
      cases h
      rcases List.mem_cons.mp hx with rfl | hx
      · exact le_refl _
      · cases rest with
        | nil => cases hx
        | cons a b =>
          exfalso
          have := bestPair_isSome (a :: b) (by simp)
          rw [hb] at this
          cases this
    | some q =>
      rw [hb] at h
      simp only [Option.some.injEq] at h
      have hqmax := ih q hb
      by_cases hlt : pairLt p q = true
      · rw [if_pos hlt] at h
        subst h
        rcases List.mem_cons.mp hx with rfl | hx
        · rw [pairLt] at hlt
          simp only [Bool.or_eq_true, Bool.and_eq_true, decide_eq_true_eq] at hlt
          rcases hlt with h1 | h2
          · exact le_of_lt h1
          · exact le_of_eq h2.1
        · exact hqmax x hx
      · rw [if_neg hlt] at h
        subst h
        rcases List.mem_cons.mp hx with rfl | hx
        · exact le_refl _
        · exact le_trans (hqmax x hx) (pairLt_false_fst_le hlt)

theorem getCloseMatches1_none_iff (word : String) (cs : List String) :
    getCloseMatches1 word cs = none ↔ ∀ c ∈ cs, ratio c word < cutoffHalf := by
  rw [getCloseMatches1]
  simp only [Option.map_eq_none']
  constructor
  · intro hb c hc
    by_contra hlt'
    have hge : cutoffHalf ≤ ratio c word := not_lt.mp hlt'
    cases hl : cs.filterMap
        (fun x => if cutoffHalf ≤ ratio x word then some (ratio x word, x) else none) with
    | nil =>
      have := List.filterMap_eq_nil_iff.mp hl c hc
      rw [if_pos hge] at this
      cases this
    | cons a b =>
      have := bestPair_isSome (a :: b) (by simp)
      rw [hl] at hb
      rw [hb] at this
      cases this
  · intro hall
    have hl : cs.filterMap
        (fun x => if cutoffHalf ≤ ratio x word then some (ratio x word, x) else none) = [] := by
      refine List.filterMap_eq_nil_iff.mpr ?_
      intro a ha
      rw [if_neg (not_le.mpr (hall a ha))]
    rw [hl]
    rfl

theorem getCloseMatches1_some (word : String) (cs : List String) (c : String)
    (h : getCloseMatches1 word cs = some c) :
    c ∈ cs ∧ cutoffHalf ≤ ratio c word ∧ ∀ d ∈ cs, ratio d word ≤ ratio c word := by
  rw [getCloseMatches1] at h
  rcases Option.map_eq_some'.mp h with ⟨m, hm, hmc⟩
  have hmem := bestPair_mem _ _ hm
  rcases List.mem_filterMap.mp hmem with ⟨a, ha, hfa⟩
  by_cases hge : cutoffHalf ≤ ratio a word
  · rw [if_pos hge] at hfa
    cases hfa
    subst hmc
    refine ⟨ha, hge, ?_⟩
    intro d hd
    by_cases hdg : cutoffHalf ≤ ratio d word
    · have : (ratio d word, d) ∈ cs.filterMap
          (fun x => if cutoffHalf ≤ ratio x word then some (ratio x word, x) else none) :=
        List.mem_filterMap.mpr ⟨d, hd, by rw [if_pos hdg]⟩
      exact bestPair_max _ _ hm _ this
    · exact le_trans (le_of_lt (not_le.mp hdg)) hge
  · rw [if_neg hge] at hfa
    cases hfa

theorem suggest_closest_mem (q : String) (options : List String) (c : String)
    (h : suggest_closest q options = some c) : c ∈ options := by
  rw [suggest_closest] at h
  cases hf : options.find? (fun option => pyIn (pyLower q) (pyLower option)) with
  | some o =>
    rw [hf] at h
    cases h
    exact List.mem_of_find?_eq_some hf
  | none =>
    rw [hf] at h
    exact (getCloseMatches1_some q options c h).1

theorem find?_first {α : Type} (p : α → Bool) (l1 l2 : List α) (c : α)
    (h1 : ∀ d ∈ l1, p d = false) (hc : p c = true) :
    (l1 ++ c :: l2).find? p = some c := by
  induction l1 with
  | nil => simp [List.find?, hc]
  | cons a l1 ih =>
    have ha : p a = false := h1 a (List.mem_cons_self _ _)
    simp only [List.cons_append, List.find?, ha]
    exact ih (fun d hd => h1 d (List.mem_cons_of_mem _ hd))

theorem getD_mem {α : Type} :
    ∀ (l : List α) (n : Nat) (d : α), n < l.length → l.getD n d ∈ l := by
  intro l
  induction l with
  | nil => intro n d h; cases h
  | cons x xs ih =>
    intro n d h
    cases n with
    | zero => exact List.mem_cons_self _ _
    | succ m =>
      exact List.mem_cons_of_mem _ (ih m d (Nat.lt_of_succ_lt_succ h))

theorem pickD_mem {α : Type} (l : List α) (d : α) (r : List Nat) (h : l ≠ []) :
    (pickD l d r).1 ∈ l := by
  rw [pickD]
  have hlen : 0 < l.length := List.length_pos.mpr h
  exact getD_mem l _ d (Nat.mod_lt _ hlen)

theorem pick_mem {α : Type} (l : List α) (r : List Nat) (x : α) (r1 : List Nat)
    (h : pick l r = some (x, r1)) : x ∈ l := by
  cases l with
  | nil => cases h
  | cons a as_ =>
    rw [pick] at h
    cases h
    exact getD_mem _ _ _ (Nat.mod_lt _ (Nat.succ_pos _))

theorem pick_none_iff {α : Type} (l : List α) (r : List Nat) :
    pick l r = none ↔ l = [] := by
  cases l with
  | nil => simp [pick]
  | cons a as_ => simp [pick]

/-! ## Lemmas: selection steps -/

theorem selectCountry_ok_exact (q : String) (links : List CountryLink)
    (r : List Nat) (m : CountryLink) (r1 : List Nat)
    (h : selectCountry (some q) links r = Except.ok (m, r1)) :
    m ∈ links ∧ pyLower q = pyLower m.country ∧ r1 = r := by
  rw [selectCountry] at h
  cases hf : links.filter (fun cl => pyLower q == pyLower cl.country) with
  | nil => rw [hf] at h; cases h
  | cons m0 ms =>
    rw [hf] at h
    cases h
    have hm : m ∈ links.filter (fun cl => pyLower q == pyLower cl.country) := by
      rw [hf]; exact List.mem_cons_self _ _
    rcases List.mem_filter.mp hm with ⟨hmem, hpred⟩
    exact ⟨hmem, eq_of_beq hpred, rfl⟩

theorem selectCountry_error_of_no_exact (q : String) (links : List CountryLink)
    (r : List Nat) (h : ∀ cl ∈ links, pyLower q ≠ pyLower cl.country) :
    selectCountry (some q) links r =
      Except.error (RunError.filterNotFound "country" q
        (suggest_closest q (links.map (fun cl => cl.country)))) := by
  rw [selectCountry]
  have hf : links.filter (fun cl => pyLower q == pyLower cl.country) = [] := by
    refine List.filter_eq_nil_iff.mpr ?_
    intro cl hcl hb
    exact h cl hcl (eq_of_beq hb)
  rw [hf]

theorem selectCountry_ok_of_exact (q : String) (links : List CountryLink)
    (r : List Nat) (cl : CountryLink) (hcl : cl ∈ links)
    (heq : pyLower q = pyLower cl.country) :
    ∃ m r1, selectCountry (some q) links r = Except.ok (m, r1)
      ∧ pyLower m.country = pyLower q := by
  rw [selectCountry]
  cases hf : links.filter (fun c => pyLower q == pyLower c.country) with
  | nil =>
    exfalso
    have : cl ∈ links.filter (fun c => pyLower q == pyLower c.country) :=
      List.mem_filter.mpr ⟨hcl, beq_iff_eq.mpr heq⟩
    rw [hf] at this
    cases this
  | cons m0 ms =>
    refine ⟨m0, r, rfl, ?_⟩
    have hm : m0 ∈ links.filter (fun c => pyLower q == pyLower c.country) := by
      rw [hf]; exact List.mem_cons_self _ _
    exact (eq_of_beq (List.mem_filter.mp hm).2).symm

theorem selectGenre_ok_mem (g : Option String) (country : String)
    (genreLinks : List GenreLink) (r : List Nat) (gl : GenreLink) (r1 : List Nat)
    (h : selectGenre g country genreLinks r = Except.ok (gl, r1)) :
    gl ∈ genreLinks := by
  cases g with
  | some q =>
    rw [selectGenre] at h
    cases hf : genreLinks.filter
        (fun x => pyIn (pyLower q) (pyLower (simplify_label x.genre country))) with
    | nil => rw [hf] at h; cases h
    | cons f fs =>
      rw [hf] at h
      have hp : pickD (f :: fs) f r = (gl, r1) := by injection h
      have hmm : (pickD (f :: fs) f r).1 ∈ genreLinks.filter
          (fun x => pyIn (pyLower q) (pyLower (simplify_label x.genre country))) := by
        rw [hf]
        exact pickD_mem (f :: fs) f r (by simp)
      rw [hp] at hmm
      exact (List.mem_filter.mp hmm).1
  | none =>
    rw [selectGenre] at h
    cases hp : pick genreLinks r with
    | none => rw [hp] at h; cases h
    | some pr =>
      rw [hp] at h
      obtain ⟨x, rx⟩ := pr
      cases h
      exact pick_mem _ _ _ _ hp

theorem selectGenre_ok_match (q country : String)
    (genreLinks : List GenreLink) (r : List Nat) (gl : GenreLink) (r1 : List Nat)
    (h : selectGenre (some q) country genreLinks r = Except.ok (gl, r1)) :
    pyIn (pyLower q) (pyLower (simplify_label gl.genre country)) = true := by
  rw [selectGenre] at h
  cases hf : genreLinks.filter
      (fun x => pyIn (pyLower q) (pyLower (simplify_label x.genre country))) with
  | nil => rw [hf] at h; cases h
  | cons f fs =>
    rw [hf] at h
    have hp : pickD (f :: fs) f r = (gl, r1) := by injection h
    have hmm : (pickD (f :: fs) f r).1 ∈ genreLinks.filter
        (fun x => pyIn (pyLower q) (pyLower (simplify_label x.genre country))) := by
      rw [hf]
      exact pickD_mem (f :: fs) f r (by simp)
    rw [hp] at hmm
    exact (List.mem_filter.mp hmm).2

theorem selectGenre_ok_of_match (q country : String)
    (genreLinks : List GenreLink) (r : List Nat) (gl : GenreLink)
    (hgl : gl ∈ genreLinks)
    (hm : pyIn (pyLower q) (pyLower (simplify_label gl.genre country)) = true) :
    ∃ g r1, selectGenre (some q) country genreLinks r = Except.ok (g, r1)
      ∧ pyIn (pyLower q) (pyLower (simplify_label g.genre country)) = true := by
  rw [selectGenre]
  cases hf : genreLinks.filter
      (fun x => pyIn (pyLower q) (pyLower (simplify_label x.genre country))) with
  | nil =>
    exfalso
    have : gl ∈ genreLinks.filter
        (fun x => pyIn (pyLower q) (pyLower (simplify_label x.genre country))) :=
      List.mem_filter.mpr ⟨hgl, hm⟩
    rw [hf] at this
    cases this
  | cons f fs =>
    refine ⟨(pickD (f :: fs) f r).1, (pickD (f :: fs) f r).2, rfl, ?_⟩
    have : (pickD (f :: fs) f r).1 ∈ genreLinks.filter
        (fun x => pyIn (pyLower q) (pyLower (simplify_label x.genre country))) := by
      rw [hf]
      exact pickD_mem (f :: fs) f r (by simp)
    exact (List.mem_filter.mp this).2

theorem selectGenre_error_of_empty (q country : String) (r : List Nat)
    (genreLinks : List GenreLink)
    (h : genreLinks.filter
      (fun x => pyIn (pyLower q) (pyLower (simplify_label x.genre country))) = []) :
    selectGenre (some q) country genreLinks r =
      Except.error (RunError.filterNotFound "genre" q
        (suggest_closest q (genreLinks.map (fun gl => simplify_label gl.genre country)))) := by
  rw [selectGenre, h]

theorem find?_isSome_of_mem {α : Type} (p : α → Bool) (l : List α) (a : α)
    (ha : a ∈ l) (hp : p a = true) : ∃ b, l.find? p = some b := by
  induction l with
  | nil => cases ha
  | cons x xs ih =>
    by_cases hx : p x = true
    · exact ⟨x, by simp [List.find?, hx]⟩
    · rcases List.mem_cons.mp ha with rfl | ha'
      · exact absurd hp hx
      · rcases ih ha' with ⟨b, hb⟩
        exact ⟨b, by simp [List.find?, Bool.of_not_eq_true hx, hb]⟩

/-! ## Lemmas: get_final_film_titles with a subgenre filter -/

theorem guessedBranch_error (env : Env) (dq country genre : String) (r : List Nat)
    (e : RunError) (h : guessedBranch env dq country genre r = Except.error e) :
    e = RunError.filterNotFound "subgenre" dq none ∧
      suggest_closest dq
        ((search_global_subgenre_links country genre).map (fun gl => gl.subgenre)) = none := by
  rw [guessedBranch] at h
  split at h
  next gsugg hs =>
    split at h
    next gm hfind => cases h
    next hfind =>
      exfalso
      have hmemn := suggest_closest_mem _ _ _ hs
      rcases List.mem_map.mp hmemn with ⟨gl, hgl, hname⟩
      rcases find?_isSome_of_mem (fun x => x.subgenre == gsugg) _ gl hgl
        (beq_iff_eq.mpr hname) with ⟨b, hb⟩
      rw [hfind] at hb
      cases hb
  next hs => cases h; exact ⟨rfl, hs⟩

theorem get_final_error (env : Env) (url : String) (dq country genre : String)
    (r : List Nat) (e : RunError)
    (h : get_final_film_titles env url (some dq) country genre r = Except.error e) :
    e = RunError.filterNotFound "subgenre" dq none
      ∧ suggest_closest dq
          ((subgenreLinksOf (env.pages url)).map (fun sl => sl.subgenre)) = none
      ∧ suggest_closest dq
          ((search_global_subgenre_links country genre).map (fun gl => gl.subgenre)) = none := by
  rw [get_final_film_titles] at h
  split at h
  next sugg hs =>
    split at h
    next matched hfind => cases h
    next hfind =>
      exfalso
      have hmemn := suggest_closest_mem _ _ _ hs
      rcases List.mem_map.mp hmemn with ⟨sl, hsl, hname⟩
      rcases find?_isSome_of_mem (fun x => x.subgenre == sugg) _ sl hsl
        (beq_iff_eq.mpr hname) with ⟨b, hb⟩
      rw [hfind] at hb
      cases hb
  next hs =>
    rcases guessedBranch_error env dq country genre r e h with ⟨he, hg⟩
    exact ⟨he, hs, hg⟩

theorem get_final_ok_of_suggest (env : Env) (url : String) (dq country genre : String)
    (r : List Nat) (s : String)
    (hs : suggest_closest dq
      ((subgenreLinksOf (env.pages url)).map (fun sl => sl.subgenre)) = some s) :
    ∃ films sg,
      get_final_film_titles env url (some dq) country genre r =
        Except.ok ((films, sg), r) := by
  have hmemn := suggest_closest_mem _ _ _ hs
  rcases List.mem_map.mp hmemn with ⟨sl, hsl, hname⟩
  rcases find?_isSome_of_mem (fun x => x.subgenre == s) _ sl hsl
    (beq_iff_eq.mpr hname) with ⟨b, hb⟩
  rw [get_final_film_titles]
  split
  next sugg hs' =>
    rw [hs'] at hs
    cases hs
    split
    next matched hfind => exact ⟨_, _, rfl⟩
    next hfind => rw [hfind] at hb; cases hb
  next hs' => rw [hs'] at hs; cases hs

theorem selectCountry_ok_mem (c : Option String) (links : List CountryLink)
    (r : List Nat) (cc : CountryLink) (r1 : List Nat)
    (h : selectCountry c links r = Except.ok (cc, r1)) : cc ∈ links := by
  cases c with
  | some q => exact (selectCountry_ok_exact q links r cc r1 h).1
  | none =>
    rw [selectCountry] at h
    cases hp : pick links r with
    | none => rw [hp] at h; cases h
    | some pr =>
      rw [hp] at h
      obtain ⟨x, rx⟩ := pr
      cases h
      exact pick_mem _ _ _ _ hp

/-- Tracing one accepted draw: the chosen film is fresh with respect to the
accumulated results, and the row's display fields are built from a country
link of the environment and a genre link of that country's page via
`simplify_label`. -/
theorem attemptDraw_ok_some (env : Env) (cfg : Cfg) (results : List Row)
    (r : List Nat) (row : Row) (r1 : List Nat)
    (h : attemptDraw env cfg results r = Except.ok (some row, r1)) :
    (∀ q ∈ results, q.Film ≠ row.Film) ∧
    (∃ cc cg sg, cc ∈ env.countryLinks
      ∧ cg ∈ get_genre_links_from_live_page env cc.genre_page_url
      ∧ row.Country = cc.country
      ∧ row.Genre = simplify_label cg.genre cc.country
      ∧ row.Subgenre = simplify_label sg cc.country) := by
  rw [attemptDraw] at h
  split at h
  next e hc => cases h
  next cc rc hc =>
    split at h
    next e hg => cases h
    next cg rg hg =>
      split at h
      next e hf => cases h
      next films subg rf hf =>
        split at h
        next hempty => cases h
        next hempty =>
          split at h
          next hrem => cases h
          next c0 cs' hrem =>
            have h' : (some (Row.mk cc.country
                (simplify_label cg.genre cc.country)
                (simplify_label subg cc.country)
                (pickD (c0 :: cs') c0 rf).1), (pickD (c0 :: cs') c0 rf).2)
                = (some row, r1) := by
              injection h
            rw [Prod.mk.injEq] at h'
            obtain ⟨hsome, hr⟩ := h'
            injection hsome with hrow
            subst hrow
            constructor
            · intro q hq
              have hmemf : (pickD (c0 :: cs') c0 rf).1 ∈
                  films.filter (fun f => !results.any fun row => row.Film == f) := by
                rw [hrem]
                exact pickD_mem (c0 :: cs') c0 rf (by simp)
              have hpred := (List.mem_filter.mp hmemf).2
              rw [Bool.not_eq_true'] at hpred
              have hall := List.any_eq_false.mp hpred q hq
              intro hcon
              exact hall (beq_iff_eq.mpr hcon)
            · exact ⟨cc, cg, subg, selectCountry_ok_mem _ _ _ _ _ hc,
                selectGenre_ok_mem _ _ _ _ _ _ hg, rfl, rfl, rfl⟩

/-! ## Lemmas: the draw loop -/

theorem runLoopF_attempts_le (env : Env) (cfg : Cfg) :
    ∀ (fuel : Nat) (results : List Row) (r : List Nat) (attempts : Nat)
      (rows : List Row) (att : Nat),
      runLoopF env cfg fuel results r attempts = Except.ok (rows, att) →
      att ≤ attempts + fuel := by
  intro fuel
  induction fuel with
  | zero =>
    intro results r attempts rows att h
    rw [runLoopF] at h
    injection h with h'
    rw [Prod.mk.injEq] at h'
    omega
  | succ fuel ih =>
    intro results r attempts rows att h
    rw [runLoopF] at h
    split at h
    · split at h
      next e hd => cases h
      next r1 hd => exact le_trans (ih _ _ _ _ _ h) (by omega)
      next row r1 hd => exact le_trans (ih _ _ _ _ _ h) (by omega)
    · injection h with h'
      rw [Prod.mk.injEq] at h'
      omega

theorem runLoopF_film_nodup (env : Env) (cfg : Cfg) :
    ∀ (fuel : Nat) (results : List Row) (r : List Nat) (attempts : Nat)
      (rows : List Row) (att : Nat),
      (results.map Row.Film).Nodup →
      runLoopF env cfg fuel results r attempts = Except.ok (rows, att) →
      (rows.map Row.Film).Nodup := by
  intro fuel
  induction fuel with
  | zero =>
    intro results r attempts rows att hnd h
    rw [runLoopF] at h
    injection h with h'
    rw [Prod.mk.injEq] at h'
    exact h'.1 ▸ hnd
  | succ fuel ih =>
    intro results r attempts rows att hnd h
    rw [runLoopF] at h
    split at h
    · split at h
      next e hd => cases h
      next r1 hd => exact ih _ _ _ _ _ hnd h
      next row r1 hd =>
        refine ih _ _ _ _ _ ?_ h
        have hfresh := (attemptDraw_ok_some env cfg results r row r1 hd).1
        rw [List.map_append]
        refine List.Nodup.append hnd (by simp) ?_
        intro x hx hy
        simp only [List.map_cons, List.map_nil, List.mem_singleton] at hy
        rcases List.mem_map.mp hx with ⟨q, hq, hqf⟩
        exact hfresh q hq (hqf.symm ▸ hy ▸ rfl)
    · injection h with h'
      rw [Prod.mk.injEq] at h'
      exact h'.1 ▸ hnd

theorem runLoopF_error_now (env : Env) (cfg : Cfg) (fuel : Nat) (results : List Row)
    (r : List Nat) (attempts : Nat) (e : RunError)
    (hlt : results.length < cfg.n)
    (hd : attemptDraw env cfg results r = Except.error e) :
    runLoopF env cfg (fuel + 1) results r attempts = Except.error e := by
  rw [runLoopF, if_pos hlt, hd]

/-! ## Claim theorems -/

/-- Claim C8: the resolver first returns the first candidate, in candidate
order, whose lowercased text contains the lowercased query; when no
candidate contains it, it returns the single highest-similarity candidate
exactly when that candidate's ratio reaches the 0.5 cutoff and `none`
otherwise; and `sci-fi` against `science fiction` scores below 0.5, so
that query yields `none`. -/
theorem C8_resolver_tiering :
    (∀ (q : String) (l1 l2 : List String) (c : String),
      (∀ d ∈ l1, pyIn (pyLower q) (pyLower d) = false) →
      pyIn (pyLower q) (pyLower c) = true →
      suggest_closest q (l1 ++ c :: l2) = some c)
    ∧ (∀ (q : String) (cs : List String),
        (∀ d ∈ cs, pyIn (pyLower q) (pyLower d) = false) →
        ((suggest_closest q cs = none ↔ ∀ c ∈ cs, ratio c q < cutoffHalf)
          ∧ ∀ c, suggest_closest q cs = some c →
              c ∈ cs ∧ cutoffHalf ≤ ratio c q ∧ ∀ d ∈ cs, ratio d q ≤ ratio c q))
    ∧ suggest_closest "sci-fi" ["science fiction"] = none
    ∧ ratio "science fiction" "sci-fi" < cutoffHalf := by
  refine ⟨?_, ?_, by decide, by decide⟩
  · intro q l1 l2 c h1 hc
    rw [suggest_closest, find?_first _ l1 l2 c h1 hc]
  · intro q cs hall
    have hfind : cs.find? (fun option => pyIn (pyLower q) (pyLower option)) = none := by
      rw [List.find?_eq_none]
      intro x hx
      simp [hall x hx]
    constructor
    · rw [suggest_closest, hfind]
      exact getCloseMatches1_none_iff q cs
    · intro c hc
      rw [suggest_closest, hfind] at hc
      exact getCloseMatches1_some q cs c hc

/-- Witness for C8: the substring tier picks the first containing candidate
in extraction order, and the approximate tier accepts `Americans` against
`American` (ratio 16/17 ≥ 1/2). -/
theorem C8_resolver_tiering_witness :
    suggest_closest "war" ["peace", "star wars films"] = some "star wars films"
    ∧ (suggest_closest "Americans" ["American"] = none ↔
        ∀ c ∈ ["American"], ratio c "Americans" < cutoffHalf) := by
  constructor
  · exact C8_resolver_tiering.1 "war" ["peace"] [] "star wars films"
      (by decide) (by decide)
  · exact (C8_resolver_tiering.2.1 "Americans" ["American"] (by decide)).1

/-- Claim C7: a subgenre filter that is still unresolved after heuristic
generation makes `get_final_film_titles` fail with a `FilterNotFound` error
naming the query; such a failure can only happen when the original
page-derived candidate set yields no closest suggestion (whenever it yields
one, the call succeeds, so the error vacuously reports every available
suggestion); and the failure aborts the run immediately instead of being
retried. -/
theorem C7_unresolved_subgenre_fails :
    (∀ (env : Env) (url dq country genre : String) (r : List Nat) (e : RunError),
      get_final_film_titles env url (some dq) country genre r = Except.error e →
      e = RunError.filterNotFound "subgenre" dq none
        ∧ suggest_closest dq
            ((subgenreLinksOf (env.pages url)).map (fun sl => sl.subgenre)) = none
        ∧ suggest_closest dq
            ((search_global_subgenre_links country genre).map (fun gl => gl.subgenre)) = none)
    ∧ (∀ (env : Env) (url dq country genre : String) (r : List Nat) (s : String),
        suggest_closest dq
          ((subgenreLinksOf (env.pages url)).map (fun sl => sl.subgenre)) = some s →
        ∃ films sg, get_final_film_titles env url (some dq) country genre r =
          Except.ok ((films, sg), r))
    ∧ (∀ (env : Env) (cfg : Cfg) (fuel : Nat) (results : List Row) (r : List Nat)
        (attempts : Nat) (e : RunError),
        results.length < cfg.n →
        attemptDraw env cfg results r = Except.error e →
        runLoopF env cfg (fuel + 1) results r attempts = Except.error e) :=
  ⟨get_final_error, get_final_ok_of_suggest, runLoopF_error_now⟩

/-- Witness for C7: in an environment with no page-derived subgenre links,
the filter `qq` resolves nowhere (also not among the guessed links built
from empty country/genre) and the call errors with exactly
`FilterNotFound "subgenre" "qq"` and no suggestion. -/
theorem C7_unresolved_subgenre_fails_witness :
    RunError.filterNotFound "subgenre" "qq" none
        = RunError.filterNotFound "subgenre" "qq" none
      ∧ suggest_closest "qq"
          ((subgenreLinksOf (envEmpty.pages "u")).map (fun sl => sl.subgenre)) = none
      ∧ suggest_closest "qq"
          ((search_global_subgenre_links "" "").map (fun gl => gl.subgenre)) = none :=
  C7_unresolved_subgenre_fails.1 envEmpty "u" "qq" "" "" []
    (RunError.filterNotFound "subgenre" "qq" none) (by decide)

/-- Claim C9: within one run no two accepted result rows carry the same
film string — a candidate equal to an already-accepted film is filtered out
before the random choice — and the film-title list extracted from a single
page (a skip-if-already-seen scan, so the first occurrence is the one kept)
has no duplicate, preserves extraction order (it is a sublist of the raw
`li` texts), and keeps exactly the raw titles. -/
theorem C9_film_dedup :
    (∀ (env : Env) (cfg : Cfg) (r : List Nat) (rows : List Row),
      run_main env cfg r = Except.ok rows → (rows.map Row.Film).Nodup)
    ∧ (∀ (env : Env) (url : String),
        (get_film_titles_from_live_page env url).Nodup
        ∧ List.Sublist (get_film_titles_from_live_page env url)
            ((env.pages url).pagesDiv.getD [])
        ∧ ∀ x, x ∈ get_film_titles_from_live_page env url ↔
            x ∈ (env.pages url).pagesDiv.getD []) := by
  constructor
  · intro env cfg r rows h
    rw [run_main] at h
    cases hl : runLoop env cfg r with
    | error e => rw [hl] at h; cases h
    | ok pr =>
      rw [hl] at h
      obtain ⟨rows0, att⟩ := pr
      injection h with h'
      rw [runLoop] at hl
      have hnd0 : (rows0.map Row.Film).Nodup :=
        runLoopF_film_nodup env cfg (cfg.n * 5) [] r 0 rows0 att (by simp) hl
      have hperm := (List.perm_insertionSort rowLe rows0).map Row.Film
      exact h' ▸ (hperm.nodup_iff.mpr hnd0)
  · intro env url
    refine ⟨dedupFirstAux_nodup _ _, dedupFirstAux_sublist _ _, ?_⟩
    intro x
    rw [get_film_titles_from_live_page, mem_dedupFirstAux]
    simp

/-- Witness for C9: the specification scenario run accepts exactly one row
and its film column is duplicate-free. -/
theorem C9_film_dedup_witness :
    (([Row.mk "American" "science fiction" "" "Film A"]).map Row.Film).Nodup :=
  C9_film_dedup.1 envScenario (Cfg.mk 1 none none none) [0, 0, 0]
    [Row.mk "American" "science fiction" "" "Film A"] (by decide)

/-- Claim C10: a run spends at most `n * 5` draw attempts (each accepted or
abandoned draw consuming exactly one) and then stops; with `n = 3` and
every draw abandoned, the loop terminates normally after exactly 15
attempts with zero results. -/
theorem C10_attempt_budget :
    (∀ (env : Env) (cfg : Cfg) (r : List Nat) (rows : List Row) (att : Nat),
      runLoop env cfg r = Except.ok (rows, att) → att ≤ cfg.n * 5)
    ∧ runLoop envAbandon (Cfg.mk 3 none none none) [] = Except.ok ([], 15) := by
  constructor
  · intro env cfg r rows att h
    rw [runLoop] at h
    simpa using runLoopF_attempts_le env cfg (cfg.n * 5) [] r 0 rows att h
  · decide

/-- Witness for C10: the all-abandoned run's 15 attempts respect the
`3 * 5` budget. -/
theorem C10_attempt_budget_witness : (15 : Nat) ≤ 3 * 5 :=
  C10_attempt_budget.1 envAbandon (Cfg.mk 3 none none none) [] [] 15 (by decide)

/-- Claim C1 (divergence trace): `search_global_subgenre_links` does build
`Category:American_science_fiction_time_travel_films` when handed the
draw's country and genre — but `main` never hands them over
(`get_final_film_titles` is called without `country`/`genre`, which default
to `""`), so the run synthesizes and descends into
`Category:time_travel_films` instead: the accepted film comes from that
page while the American-prefixed category is never fetched non-trivially. -/
theorem C1_heuristic_divergence :
    ((search_global_subgenre_links "American" "science fiction").head? =
      some (SubLink.mk
        "https://en.wikipedia.org/wiki/Category:American_science_fiction_time_travel_films"
        "American science fiction time travel films"))
    ∧ ((search_global_subgenre_links "" "").head? =
        some (SubLink.mk
          "https://en.wikipedia.org/wiki/Category:time_travel_films"
          " time travel films"))
    ∧ (run_main envHeuristic
        (Cfg.mk 1 (some "American") (some "science fiction") (some "time travel")) []
        = Except.ok [Row.mk "American" "science fiction" "time travel" "TT Film"])
    ∧ envHeuristic.pages
        "https://en.wikipedia.org/wiki/Category:American_science_fiction_time_travel_films"
        = pageBlank := by
  refine ⟨by decide, by decide, by decide, rfl⟩

/-- Counterexample to claim C2: the country filter `Americans` equals no
observed label case-insensitively but scores 16/17 ≥ 1/2 against
`American`; the claim says it is then selected and the run continues, yet
the code terminates with `FilterNotFound` (the approximate match is only
used for the `Did you mean` suggestion). -/
theorem C2_counterexample :
    (pyLower "Americans" == pyLower "American") = false
    ∧ cutoffHalf ≤ ratio "American" "Americans"
    ∧ selectCountry (some "Americans") [CountryLink.mk "American" "u"] []
        = Except.error (RunError.filterNotFound "country" "Americans" (some "American")) := by
  refine ⟨by decide, by decide, by decide⟩

/-- Claim C2 as amended: the country filter is matched by exact
case-insensitive equality only; any selected country matches exactly, an
exact match guarantees selection, and when no label matches exactly the run
terminates with `FilterNotFound` carrying the resolver's closest
suggestion (substring tier included) when one exists. -/
theorem C2_amended_country_exact_only :
    (∀ (q : String) (links : List CountryLink) (r : List Nat)
        (m : CountryLink) (r1 : List Nat),
      selectCountry (some q) links r = Except.ok (m, r1) →
      m ∈ links ∧ pyLower q = pyLower m.country ∧ r1 = r)
    ∧ (∀ (q : String) (links : List CountryLink) (r : List Nat) (cl : CountryLink),
        cl ∈ links → pyLower q = pyLower cl.country →
        ∃ m r1, selectCountry (some q) links r = Except.ok (m, r1)
          ∧ pyLower m.country = pyLower q)
    ∧ (∀ (q : String) (links : List CountryLink) (r : List Nat),
        (∀ cl ∈ links, pyLower q ≠ pyLower cl.country) →
        selectCountry (some q) links r =
          Except.error (RunError.filterNotFound "country" q
            (suggest_closest q (links.map (fun cl => cl.country))))) :=
  ⟨selectCountry_ok_exact, selectCountry_ok_of_exact, selectCountry_error_of_no_exact⟩

/-- Witness for the amended C2: `Americans` matches no observed label
exactly, so selection fails with the suggestion `American`. -/
theorem C2_amended_country_exact_only_witness :
    selectCountry (some "Americans") [CountryLink.mk "American" "u"] [] =
      Except.error (RunError.filterNotFound "country" "Americans"
        (suggest_closest "Americans" ([CountryLink.mk "American" "u"].map
          (fun cl => cl.country)))) :=
  C2_amended_country_exact_only.2.2 "Americans" [CountryLink.mk "American" "u"] []
    (by decide)

/-- Counterexample to claim C3: with no genre filter and an empty extracted
genre-link list, the draw is not abandoned locally — `random.choice([])`
raises `IndexError`, the exception reaches the caller and the run aborts
instead of continuing with the next attempt. -/
theorem C3_counterexample :
    get_genre_links_from_live_page envNoGenres "cu" = []
    ∧ attemptDraw envNoGenres (Cfg.mk 1 none none none) [] []
        = Except.error RunError.indexError
    ∧ runLoop envNoGenres (Cfg.mk 1 none none none) []
        = Except.error RunError.indexError := by
  refine ⟨by decide, by decide, by decide⟩

/-- Claim C3 as amended: for every unfiltered draw whose chosen country has
an empty extracted genre-link list, the uncaught `IndexError` of
`random.choice([])` propagates out of the draw and aborts the whole run
(no attempt is completed and no further draw happens). -/
theorem C3_amended_empty_genres_crash :
    ∀ (env : Env) (cfg : Cfg) (results : List Row) (r : List Nat)
      (cc : CountryLink) (r1 : List Nat),
      cfg.g = none →
      selectCountry cfg.c env.countryLinks r = Except.ok (cc, r1) →
      get_genre_links_from_live_page env cc.genre_page_url = [] →
      attemptDraw env cfg results r = Except.error RunError.indexError
      ∧ ∀ (fuel attempts : Nat), results.length < cfg.n →
          runLoopF env cfg (fuel + 1) results r attempts
            = Except.error RunError.indexError := by
  intro env cfg results r cc r1 hgnone hc hempty
  have hdraw : attemptDraw env cfg results r = Except.error RunError.indexError := by
    rw [attemptDraw]
    split
    next e hcE => rw [hc] at hcE; cases hcE
    next cc' rc hcO =>
      rw [hc] at hcO
      injection hcO with hp
      rw [Prod.mk.injEq] at hp
      obtain ⟨h1, h2⟩ := hp
      subst h1
      subst h2
      rw [hgnone, hempty]
      rfl
  exact ⟨hdraw, fun fuel attempts hlt =>
    runLoopF_error_now env cfg fuel results r attempts _ hlt hdraw⟩

/-- Witness for the amended C3: the one-country crash environment. -/
theorem C3_amended_empty_genres_crash_witness :
    attemptDraw envNoGenres (Cfg.mk 2 none none none) [] []
        = Except.error RunError.indexError
    ∧ ∀ (fuel attempts : Nat), ([] : List Row).length < (Cfg.mk 2 none none none).n →
        runLoopF envNoGenres (Cfg.mk 2 none none none) (fuel + 1) [] [] attempts
          = Except.error RunError.indexError :=
  C3_amended_empty_genres_crash envNoGenres (Cfg.mk 2 none none none) [] []
    (CountryLink.mk "Fr" "cu") [] rfl (by decide) (by decide)

/-- Counterexample to claim C4: on a page whose structured container yields
one link (`horror films`), the subgenre extraction of
`get_final_film_titles` still runs the soup scan and appends the
film-labelled anchor `war films`, so the soup tier contributes additional
links even though the structured tier was non-empty. -/
theorem C4_counterexample :
    pageMerge.subcatDiv = some [Anchor.mk "horror films" "/a"]
    ∧ subgenreLinksOf pageMerge =
        [SubLink.mk "https://en.wikipedia.org/a" "horror films",
          SubLink.mk "https://en.wikipedia.org/b" "war films"] := by
  refine ⟨rfl, by decide⟩

/-- Claim C4 as amended: in `get_genre_links_from_live_page` the container
truly gates the tiers — when `mw-subcategories` is present its anchors are
the whole result (even when empty), and only when it is absent does the
soup scan run; but the subgenre extraction of `get_final_film_titles` runs
both tiers unconditionally and merges them (dedup by label), so every
film-labelled soup anchor and every structured anchor contributes its
label. -/
theorem C4_amended_two_extraction_policies :
    (∀ (p : Page) (anchors : List Anchor), p.subcatDiv = some anchors →
      genreLinksOfPage p = anchors.map (fun a => GenreLink.mk a.label (wikiUrl a.href)))
    ∧ (∀ (p : Page), p.subcatDiv = none →
        genreLinksOfPage p =
          (p.allAnchors.filter (fun a => pyIn "films" (pyLower a.label))).map
            (fun a => GenreLink.mk a.label (wikiUrl a.href)))
    ∧ (∀ (p : Page) (a : Anchor), a ∈ p.allAnchors →
        pyIn "film" (pyLower a.label) = true →
        a.label ∈ (subgenreLinksOf p).map SubLink.subgenre)
    ∧ (∀ (p : Page) (anchors : List Anchor) (a : Anchor), p.subcatDiv = some anchors →
        a ∈ anchors → a.label ∈ (subgenreLinksOf p).map SubLink.subgenre) := by
  refine ⟨?_, ?_, ?_, ?_⟩
  · intro p anchors h
    rw [genreLinksOfPage, h]
  · intro p h
    rw [genreLinksOfPage, h]
  · intro p a ha hp
    obtain ⟨hnd1, hiff1, _, _⟩ :=
      addAnchorsP_spec (fun _ => true) (p.subcatDiv.getD []) [] [] (by simp) (by simp)
    obtain ⟨_, _, _, hall2⟩ :=
      addAnchorsP_spec (fun a => pyIn "film" (pyLower a.label)) p.allAnchors _ _ hiff1 hnd1
    simpa only [subgenreLinksOf] using hall2 a ha hp
  · intro p anchors a hsub ha
    obtain ⟨hnd1, hiff1, _, hall1⟩ :=
      addAnchorsP_spec (fun _ => true) (p.subcatDiv.getD []) [] [] (by simp) (by simp)
    obtain ⟨_, _, ⟨t, ht⟩, _⟩ :=
      addAnchorsP_spec (fun a => pyIn "film" (pyLower a.label)) p.allAnchors _ _ hiff1 hnd1
    have hmem1 : a.label ∈
        ((addAnchorsP (fun _ => true) (p.subcatDiv.getD []) [] []).1.map SubLink.subgenre) := by
      refine hall1 a ?_ rfl
      rw [hsub]
      exact ha
    simp only [subgenreLinksOf, ht, List.map_append]
    exact List.mem_append_left _ hmem1

/-- Witness for the amended C4: on `pageMerge` the merged extraction keeps
the soup anchor `war films` although the structured tier was non-empty. -/
theorem C4_amended_two_extraction_policies_witness :
    (Anchor.mk "war films" "/b").label ∈ (subgenreLinksOf pageMerge).map SubLink.subgenre :=
  C4_amended_two_extraction_policies.2.2.1 pageMerge (Anchor.mk "war films" "/b")
    (by decide) (by decide)

/-- Counterexample to claim C5: the genre filter `fiction films` is a
substring of the raw label `American science fiction films` but not of the
simplified label `science fiction`; the code matches against the
simplified label, so the selection fails with `FilterNotFound` where
matching the raw labels (as the claim states) would have succeeded. -/
theorem C5_counterexample :
    pyIn (pyLower "fiction films") (pyLower "American science fiction films") = true
    ∧ pyIn (pyLower "fiction films")
        (pyLower (simplify_label "American science fiction films" "American")) = false
    ∧ selectGenre (some "fiction films") "American"
        [GenreLink.mk "American science fiction films" "/u"] []
        = Except.error (RunError.filterNotFound "genre" "fiction films"
            (some "science fiction")) := by
  refine ⟨by decide, by decide, by decide⟩

/-- Claim C5 as amended: `simplify_label` is applied both when presenting
and when matching the genre filter — the substring test runs against the
simplified genre labels (not the raw ones), a simplified-label match
guarantees selection, and the presented Genre/Subgenre columns of every
accepted row are simplified labels. -/
theorem C5_amended_simplified_matching :
    (∀ (q country : String) (genreLinks : List GenreLink) (r : List Nat)
        (gl : GenreLink) (r1 : List Nat),
      selectGenre (some q) country genreLinks r = Except.ok (gl, r1) →
      gl ∈ genreLinks
        ∧ pyIn (pyLower q) (pyLower (simplify_label gl.genre country)) = true)
    ∧ (∀ (q country : String) (genreLinks : List GenreLink) (r : List Nat)
        (gl : GenreLink), gl ∈ genreLinks →
        pyIn (pyLower q) (pyLower (simplify_label gl.genre country)) = true →
        ∃ g r1, selectGenre (some q) country genreLinks r = Except.ok (g, r1)
          ∧ pyIn (pyLower q) (pyLower (simplify_label g.genre country)) = true)
    ∧ (∀ (env : Env) (cfg : Cfg) (results : List Row) (r : List Nat)
        (row : Row) (r1 : List Nat),
        attemptDraw env cfg results r = Except.ok (some row, r1) →
        ∃ cc cg sg, cc ∈ env.countryLinks
          ∧ cg ∈ get_genre_links_from_live_page env cc.genre_page_url
          ∧ row.Country = cc.country
          ∧ row.Genre = simplify_label cg.genre cc.country
          ∧ row.Subgenre = simplify_label sg cc.country) :=
  ⟨fun q country gs r gl r1 h =>
      ⟨selectGenre_ok_mem (some q) country gs r gl r1 h,
        selectGenre_ok_match q country gs r gl r1 h⟩,
    selectGenre_ok_of_match,
    fun env cfg results r row r1 h => (attemptDraw_ok_some env cfg results r row r1 h).2⟩

/-- Witness for the amended C5: `science fiction` matches the simplified
label of `American science fiction films` and is selected. -/
theorem C5_amended_simplified_matching_witness :
    GenreLink.mk "American science fiction films" "/u"
        ∈ [GenreLink.mk "American science fiction films" "/u"]
    ∧ pyIn (pyLower "science fiction")
        (pyLower (simplify_label
          (GenreLink.mk "American science fiction films" "/u").genre "American")) = true :=
  C5_amended_simplified_matching.1 "science fiction" "American"
    [GenreLink.mk "American science fiction films" "/u"] []
    (GenreLink.mk "American science fiction films" "/u") [] (by decide)

/-- Counterexample to claim C6: `get_genre_links_from_live_page` performs
no deduplication — a container with two `war films` anchors yields two
entries with the same label in one extraction call. -/
theorem C6_counterexample :
    (genreLinksOfPage pageDupLabels).map GenreLink.genre = ["war films", "war films"]
    ∧ ¬ ((genreLinksOfPage pageDupLabels).map GenreLink.genre).Nodup := by
  refine ⟨by decide, by decide⟩

/-- Claim C6 as amended: the subgenre extraction of
`get_final_film_titles` deduplicates by label through its
`seen_subgenres` set (first occurrence kept), but the genre extraction of
`get_genre_links_from_live_page` keeps every container anchor verbatim,
duplicates included. -/
theorem C6_amended_dedup_only_in_subgenre_extraction :
    (∀ p : Page, ((subgenreLinksOf p).map SubLink.subgenre).Nodup)
    ∧ (∀ (p : Page) (anchors : List Anchor), p.subcatDiv = some anchors →
        (genreLinksOfPage p).map GenreLink.genre = anchors.map Anchor.label) := by
  refine ⟨subgenreLinksOf_label_nodup, ?_⟩
  intro p anchors h
  rw [genreLinksOfPage, h, List.map_map]
  rfl

/-- Witness for the amended C6: the duplicate-label page keeps both
container labels in genre extraction while the same page's subgenre
extraction has none duplicated. -/
theorem C6_amended_dedup_only_in_subgenre_extraction_witness :
    (genreLinksOfPage pageDupLabels).map GenreLink.genre =
      [Anchor.mk "war films" "/a", Anchor.mk "war films" "/b"].map Anchor.label :=
  C6_amended_dedup_only_in_subgenre_extraction.2 pageDupLabels
    [Anchor.mk "war films" "/a", Anchor.mk "war films" "/b"] rfl
